import Mathlib

/-!
Verification of the beacon derivation core (`src/beacon/src/beacon.rs`).

The Rust code combines two `Entropy` values into a SHA-256 mixing digest,
seeds a ChaCha12 random generator from the digest, and draws — in a fixed
order — a frequency index, a payload size and a datarate index using the
Lemire widening-multiply uniform sampler of `rand` 0.8.  This file gives a
shallow embedding of that pipeline over `Nat` (machine words are `Nat`
values reduced `% 2^32` / `% 2^64` where the machine wraps) and proves the
specification claims about it.

The rejection loop of the uniform sampler has no a-priori bound, so the
embedding threads an explicit fuel; exhausted fuel is `none`, a successful
run is `some (Except.ok _)` and a validation failure `some (Except.error _)`.
All claims speak about runs that produce a `some` result, so the fuel is
quantified away in every theorem.
-/

namespace Gateway

/-- 32-bit truncation of a natural number. -/
def mask32 (n : Nat) : Nat := n % 2 ^ 32

/-- Left rotation of a 32-bit word. -/
def rotl32 (x n : Nat) : Nat := ((x <<< n) ||| (x >>> (32 - n))) % 2 ^ 32

/-- Right rotation of a 32-bit word. -/
def rotr32 (x n : Nat) : Nat := ((x >>> n) ||| (x <<< (32 - n))) % 2 ^ 32

/-- Big-endian bytes of a 32-bit word. -/
def beBytes4 (w : Nat) : List Nat :=
  [w >>> 24 % 256, w >>> 16 % 256, w >>> 8 % 256, w % 256]

/-- Interpret a byte list as big-endian 32-bit words (4 bytes per word). -/
def bytesToWordsBE : List Nat → List Nat
  | a :: b :: c :: d :: t => (a <<< 24 ||| b <<< 16 ||| c <<< 8 ||| d) :: bytesToWordsBE t
  | _ => []

/-- Interpret a byte list as little-endian 32-bit words (4 bytes per word). -/
def leWords : List Nat → List Nat
  | a :: b :: c :: d :: t => (a ||| b <<< 8 ||| c <<< 16 ||| d <<< 24) :: leWords t
  | _ => []

/-- Little-endian 8-byte serialization of a 64-bit value. -/
def leBytes8 (n : Nat) : List Nat :=
  [n % 256, n >>> 8 % 256, n >>> 16 % 256, n >>> 24 % 256,
   n >>> 32 % 256, n >>> 40 % 256, n >>> 48 % 256, n >>> 56 % 256]

/-! ### SHA-256 (FIPS 180-4), the `sha2` crate's `Sha256` -/

/-- SHA-256 round constants. -/
def shaK : List Nat :=
  [1116352408, 1899447441, 3049323471, 3921009573, 961987163, 1508970993,
   2453635748, 2870763221, 3624381080, 310598401, 607225278, 1426881987,
   1925078388, 2162078206, 2614888103, 3248222580, 3835390401, 4022224774,
   264347078, 604807628, 770255983, 1249150122, 1555081692, 1996064986,
   2554220882, 2821834349, 2952996808, 3210313671, 3336571891, 3584528711,
   113926993, 338241895, 666307205, 773529912, 1294757372, 1396182291,
   1695183700, 1986661051, 2177026350, 2456956037, 2730485921, 2820302411,
   3259730800, 3345764771, 3516065817, 3600352804, 4094571909, 275423344,
   430227734, 506948616, 659060556, 883997877, 958139571, 1322822218,
   1537002063, 1747873779, 1955562222, 2024104815, 2227730452, 2361852424,
   2428436474, 2756734187, 3204031479, 3329325298]

/-- SHA-256 working state: the eight 32-bit chaining words. -/
structure ShaState where
  a : Nat
  b : Nat
  c : Nat
  d : Nat
  e : Nat
  f : Nat
  g : Nat
  h : Nat
deriving DecidableEq, Repr

/-- SHA-256 initial hash value. -/
def shaH0 : ShaState :=
  ⟨1779033703, 3144134277, 1013904242, 2773480762, 1359893119, 2600822924, 528734635, 1541459225⟩

def shaCh (x y z : Nat) : Nat := (x &&& y) ^^^ ((x ^^^ 4294967295) &&& z)

def shaMaj (x y z : Nat) : Nat := (x &&& y) ^^^ (x &&& z) ^^^ (y &&& z)

def bsig0 (x : Nat) : Nat := rotr32 x 2 ^^^ rotr32 x 13 ^^^ rotr32 x 22

def bsig1 (x : Nat) : Nat := rotr32 x 6 ^^^ rotr32 x 11 ^^^ rotr32 x 25

def ssig0 (x : Nat) : Nat := rotr32 x 7 ^^^ rotr32 x 18 ^^^ (x >>> 3)

def ssig1 (x : Nat) : Nat := rotr32 x 17 ^^^ rotr32 x 19 ^^^ (x >>> 10)

/-- SHA-256 padding: append `0x80`, zeros, and the 64-bit big-endian bit length. -/
def shaPad (msg : List Nat) : List Nat :=
  let l := msg.length
  let zeros := (64 - (l + 9) % 64) % 64
  msg ++ [128] ++ List.replicate zeros 0 ++
    ((beBytes4 ((8 * l) >>> 32 % 2 ^ 32)) ++ beBytes4 ((8 * l) % 2 ^ 32))

/-- Message-schedule extension: `r` holds the schedule so far in reverse order. -/
def shaExtend : List Nat → Nat → List Nat
  | r, 0 => r
  | r, n + 1 =>
    shaExtend (((ssig1 (r.getD 1 0) + r.getD 6 0 + ssig0 (r.getD 14 0) + r.getD 15 0) % 2 ^ 32) :: r) n

/-- Full 64-entry message schedule of one 16-word block. -/
def shaSchedule (block : List Nat) : List Nat :=
  (shaExtend block.reverse 48).reverse

/-- One SHA-256 compression round. -/
def shaRound (st : ShaState) (kw : Nat × Nat) : ShaState :=
  let t1 := (st.h + bsig1 st.e + shaCh st.e st.f st.g + kw.1 + kw.2) % 2 ^ 32
  let t2 := (bsig0 st.a + shaMaj st.a st.b st.c) % 2 ^ 32
  ⟨(t1 + t2) % 2 ^ 32, st.a, st.b, st.c, (st.d + t1) % 2 ^ 32, st.e, st.f, st.g⟩

/-- Compress one 16-word block into the chaining state. -/
def shaCompress (st : ShaState) (block : List Nat) : ShaState :=
  let w := shaSchedule block
  let r := (shaK.zip w).foldl shaRound st
  ⟨(st.a + r.a) % 2 ^ 32, (st.b + r.b) % 2 ^ 32, (st.c + r.c) % 2 ^ 32, (st.d + r.d) % 2 ^ 32,
   (st.e + r.e) % 2 ^ 32, (st.f + r.f) % 2 ^ 32, (st.g + r.g) % 2 ^ 32, (st.h + r.h) % 2 ^ 32⟩

/-- Fold `n` 16-word blocks of `ws` into the state. -/
def shaBlocks : Nat → ShaState → List Nat → ShaState
  | 0, st, _ => st
  | n + 1, st, ws => shaBlocks n (shaCompress st (ws.take 16)) (ws.drop 16)

/-- Serialize the final state big-endian. -/
def shaOut (st : ShaState) : List Nat :=
  beBytes4 st.a ++ beBytes4 st.b ++ beBytes4 st.c ++ beBytes4 st.d ++
  beBytes4 st.e ++ beBytes4 st.f ++ beBytes4 st.g ++ beBytes4 st.h

/-- SHA-256 digest of a byte list: 32 bytes. -/
def sha256 (msg : List Nat) : List Nat :=
  let ws := bytesToWordsBE (shaPad msg)
  shaOut (shaBlocks (ws.length / 16) shaH0 ws)

/-! ### ChaCha12 keystream (the `rand_chacha` crate's `ChaCha12Rng`)

`ChaCha12Rng::from_seed` loads the 32-byte seed as eight little-endian key
words, sets the 64-bit block counter and the 64-bit stream id to zero, and
serves the keystream as 32-bit words; `next_u64` combines two consecutive
words little-endian.  The embedding computes the standard ChaCha block for
counter `i / 16` and picks word `i % 16`, which is exactly the word layout
of the `BlockRng` buffer when only `next_u64` is ever called. -/

/-- ChaCha quarter round on state indices `i1 i2 i3 i4`. -/
def chachaQR (s : List Nat) (i1 i2 i3 i4 : Nat) : List Nat :=
  let a0 := s.getD i1 0
  let b0 := s.getD i2 0
  let c0 := s.getD i3 0
  let d0 := s.getD i4 0
  let a1 := (a0 + b0) % 2 ^ 32
  let d1 := rotl32 (d0 ^^^ a1) 16
  let c1 := (c0 + d1) % 2 ^ 32
  let b1 := rotl32 (b0 ^^^ c1) 12
  let a2 := (a1 + b1) % 2 ^ 32
  let d2 := rotl32 (d1 ^^^ a2) 8
  let c2 := (c1 + d2) % 2 ^ 32
  let b2 := rotl32 (b1 ^^^ c2) 7
  (((s.set i1 a2).set i2 b2).set i3 c2).set i4 d2

/-- One ChaCha double round: a column round then a diagonal round. -/
def chachaDoubleRound (s : List Nat) : List Nat :=
  let s := chachaQR s 0 4 8 12
  let s := chachaQR s 1 5 9 13
  let s := chachaQR s 2 6 10 14
  let s := chachaQR s 3 7 11 15
  let s := chachaQR s 0 5 10 15
  let s := chachaQR s 1 6 11 12
  let s := chachaQR s 2 7 8 13
  chachaQR s 3 4 9 14

/-- Iterate `n` double rounds; ChaCha12 uses 6 of them. -/
def chachaRounds : Nat → List Nat → List Nat
  | 0, s => s
  | n + 1, s => chachaRounds n (chachaDoubleRound s)

/-- Initial ChaCha state: four constants, the eight key words, the 64-bit
block counter split little-endian, and a zero stream id. -/
def chachaInit (key : List Nat) (ctr : Nat) : List Nat :=
  [1634760805, 857760878, 2036477234, 1797285236] ++ key ++
    [ctr % 2 ^ 32, ctr >>> 32 % 2 ^ 32, 0, 0]

/-- Word `i` of the ChaCha block with counter `ctr` after `dr` double rounds. -/
def chachaBlockWord (dr : Nat) (key : List Nat) (ctr i : Nat) : Nat :=
  ((chachaRounds dr (chachaInit key ctr)).getD i 0 + (chachaInit key ctr).getD i 0) % 2 ^ 32

/-- Word `i` of the ChaCha12 keystream for the given key. -/
def chachaWord (key : List Nat) (i : Nat) : Nat :=
  chachaBlockWord 6 key (i / 16) (i % 16)

/-- The `n`-th `u64` drawn from `ChaCha12Rng`: words `2n` and `2n+1`,
combined little-endian. -/
def nextU64 (key : List Nat) (n : Nat) : Nat :=
  (chachaWord key (2 * n) + 2 ^ 32 * chachaWord key (2 * n + 1)) % 2 ^ 64

/-! ### Uniform sampling (`rand` 0.8, `UniformInt<usize>` on a 64-bit target)

`Rng::gen_range(lo..=hi)` calls `UniformInt::sample_single_inclusive`:
with `range = hi - lo + 1` it computes
`zone = (range << range.leading_zeros()) - 1` and loops drawing a `u64`
`v`, accepting `hi64 (v * range)` when `lo64 (v * range) ≤ zone`.
`gen_range(lo..hi)` (used by `SliceRandom::choose`) is
`sample_single_inclusive(lo, hi - 1)`. -/

/-- Bit length of a 64-bit value, by fuel-free structural recursion. -/
def bitlen : Nat → Nat → Nat
  | 0, _ => 0
  | fuel + 1, n => if n = 0 then 0 else bitlen fuel (n / 2) + 1

/-- `leading_zeros` of a nonzero `u64`. -/
def lz64 (n : Nat) : Nat := 64 - bitlen 64 n

/-- The acceptance zone of the widening-multiply method. -/
def sampleZone (range : Nat) : Nat := (range <<< lz64 range) - 1

/-- Rejection loop of `sample_single_inclusive`: returns the accepted high
half of the widening multiply together with the next stream position. -/
def sampleLoop (key : List Nat) (range zone : Nat) : Nat → Nat → Option (Nat × Nat)
  | 0, _ => none
  | fuel + 1, pos =>
    let v := nextU64 key pos
    if v * range % 2 ^ 64 ≤ zone then some (v * range / 2 ^ 64, pos + 1)
    else sampleLoop key range zone fuel (pos + 1)

/-- `UniformInt::<usize>::sample_single_inclusive(lo, hi)` over the ChaCha12
stream at position `pos` (requires `lo ≤ hi`, `hi < 2^64`). -/
def sample_single_inclusive (key : List Nat) (fuel pos lo hi : Nat) : Option (Nat × Nat) :=
  let range := hi + 1 - lo
  (sampleLoop key range (sampleZone range) fuel pos).map fun hp => (lo + hp.1, hp.2)

/-! ### Data model -/

/-- Modelled from the spec: `Entropy` (declared in this crate outside the
provided source) carries a scheme `version`, opaque `data` bytes and a
`timestamp`; its contribution to the mixing digest is its serialized data
followed by its serialized timestamp, in that order.  The timestamp is
serialized as 8 little-endian bytes. -/
structure Entropy where
  version : Nat
  data : List Nat
  timestamp : Nat
deriving DecidableEq, Repr

/-- Modelled from the spec: the bytes an `Entropy` feeds to the digest —
its data, then its timestamp. -/
def Entropy.digestBytes (e : Entropy) : List Nat := e.data ++ leBytes8 e.timestamp

/-- Modelled from the spec: the crate's `Error` kinds relevant to the core
(`Error` is declared in this crate outside the provided source). -/
inductive Error where
  | invalidVersion
  | noRegionParams
  | noDataRate
  | clockError
deriving DecidableEq, Repr

/-- The one field of `BlockchainRegionParamV1` the derivation reads. -/
structure BlockchainRegionParamV1 where
  channel_frequency : Nat
deriving DecidableEq, Repr

/-- The four `helium_proto::DataRate` variants the beacon uses, with the
protobuf numeric tags used by the wire report. -/
inductive DataRate where
  | sf12bw125
  | sf11bw125
  | sf10bw125
  | sf9bw125
  | sf8bw125
  | sf7bw125
deriving DecidableEq, Repr

/-- Protobuf numeric tag of a `DataRate` (`datarate as i32`). -/
def DataRate.tag : DataRate → Int
  | .sf12bw125 => 0
  | .sf11bw125 => 1
  | .sf10bw125 => 2
  | .sf9bw125 => 3
  | .sf8bw125 => 4
  | .sf7bw125 => 5

def MAX_BEACON_V0_PAYLOAD_SIZE : Nat := 10

def MIN_BEACON_V0_PAYLOAD_SIZE : Nat := 5

/-- Supported datarates worldwide, in the source's fixed order. -/
def BEACON_DATA_RATES : List DataRate :=
  [DataRate.sf7bw125, DataRate.sf8bw125, DataRate.sf9bw125, DataRate.sf10bw125]

/-- The derived beacon. -/
structure Beacon where
  data : List Nat
  frequency : Nat
  datarate : DataRate
  remote_entropy : Entropy
  local_entropy : Entropy
deriving DecidableEq, Repr

/-! ### The derivation (`Beacon::new`) -/

/-- The SHA-256 mixing digest of the two entropies: remote first, local
second, each contributing data then timestamp. -/
def mixDigest (remote loc : Entropy) : List Nat :=
  sha256 (remote.digestBytes ++ loc.digestBytes)

/-- The ChaCha12 seed: the 32 digest bytes as eight little-endian key words
(`seed.copy_from_slice(&data[0..32])` then `ChaCha12Rng::from_seed`). -/
def seedOf (remote loc : Entropy) : List Nat := leWords (mixDigest remote loc)

/-- `rand_frequency`: `region_params.choose(rng)` maps an empty slice to
`Error::no_region_params` and otherwise draws `gen_range(0..len)` —
that is, `sample_single_inclusive(0, len - 1)` — and reads that entry's
`channel_frequency`.  Returns the frequency and the new stream position. -/
def rand_frequency (region_params : List BlockchainRegionParamV1) (key : List Nat)
    (fuel pos : Nat) : Option (Except Error (Nat × Nat)) :=
  match region_params with
  | [] => some (Except.error Error.noRegionParams)
  | _ =>
    (sample_single_inclusive key fuel pos 0 (region_params.length - 1)).map fun ip =>
      Except.ok ((region_params.getD ip.1 ⟨0⟩).channel_frequency, ip.2)

/-- `rand_data_rate`: `data_rates.choose(rng)`, with `Error::no_data_rate`
for an empty slice. -/
def rand_data_rate (data_rates : List DataRate) (key : List Nat)
    (fuel pos : Nat) : Option (Except Error (DataRate × Nat)) :=
  match data_rates with
  | [] => some (Except.error Error.noDataRate)
  | _ =>
    (sample_single_inclusive key fuel pos 0 (data_rates.length - 1)).map fun ip =>
      Except.ok (data_rates.getD ip.1 DataRate.sf7bw125, ip.2)

/-- Body of the version `0 | 1` branch of `Beacon::new`: digest, seed, then
frequency, payload size and datarate drawn in this order, and the digest
truncated to the payload size. -/
def beacon_v0 (fuel : Nat) (remote_entropy local_entropy : Entropy)
    (region_params : List BlockchainRegionParamV1) : Option (Except Error Beacon) :=
  match rand_frequency region_params (seedOf remote_entropy local_entropy) fuel 0 with
  | none => none
  | some (Except.error e) => some (Except.error e)
  | some (Except.ok (frequency, pos1)) =>
    match sample_single_inclusive (seedOf remote_entropy local_entropy) fuel pos1
        MIN_BEACON_V0_PAYLOAD_SIZE MAX_BEACON_V0_PAYLOAD_SIZE with
    | none => none
    | some (payload_size, pos2) =>
      match rand_data_rate BEACON_DATA_RATES (seedOf remote_entropy local_entropy) fuel pos2 with
      | none => none
      | some (Except.error e) => some (Except.error e)
      | some (Except.ok (datarate, _)) =>
        some (Except.ok
          ⟨(mixDigest remote_entropy local_entropy).take payload_size,
            frequency, datarate, remote_entropy, local_entropy⟩)

/-- `Beacon::new`: gate on `remote_entropy.version`, then derive.  The
`fuel` bounds the sampler's rejection loops; `none` means fuel ran out. -/
def Beacon.new (fuel : Nat) (remote_entropy local_entropy : Entropy)
    (region_params : List BlockchainRegionParamV1) : Option (Except Error Beacon) :=
  match remote_entropy.version with
  | 0 | 1 => beacon_v0 fuel remote_entropy local_entropy region_params
  | _ => some (Except.error Error.invalidVersion)

/-! ### `beacon_id`: standard-alphabet base64 of the payload

The source calls `base64::engine::general_purpose::STANDARD.encode`, the
RFC 4648 standard alphabet with `=` padding; the decoder below is the
inverse standard decoder used to state the round-trip property. -/

/-- The RFC 4648 standard base64 alphabet. -/
def b64Alphabet : List Char :=
  "ABCDEFGHIJKLMNOPQRSTUVWXYZabcdefghijklmnopqrstuvwxyz0123456789+/".data

/-- Character for a six-bit value. -/
def b64Char (s : Nat) : Char := b64Alphabet.getD s 'A'

/-- Index of a character in a list, if present. -/
def idxOf (c : Char) : List Char → Option Nat
  | [] => none
  | a :: t => if a = c then some 0 else (idxOf c t).map (· + 1)

/-- Six-bit value of a base64 character (`none` for `=` and foreign chars). -/
def b64Val (c : Char) : Option Nat := idxOf c b64Alphabet

/-- Standard base64 encoding with `=` padding. -/
def b64Encode : List Nat → List Char
  | [] => []
  | [a] => [b64Char (a / 4), b64Char (a % 4 * 16), '=', '=']
  | [a, b] => [b64Char (a / 4), b64Char (a % 4 * 16 + b / 16), b64Char (b % 16 * 4), '=']
  | a :: b :: c :: t =>
    b64Char (a / 4) :: b64Char (a % 4 * 16 + b / 16) :: b64Char (b % 16 * 4 + c / 64) ::
      b64Char (c % 64) :: b64Encode t

/-- Standard base64 decoding: strict groups of four with `=` padding only
in the final group. -/
def b64Decode : List Char → Option (List Nat)
  | [] => some []
  | w :: x :: y :: z :: rest =>
    match b64Val w, b64Val x with
    | some s0, some s1 =>
      match b64Val y, b64Val z with
      | some s2, some s3 =>
        (b64Decode rest).map fun tl =>
          (s0 * 4 + s1 / 16) :: (s1 % 16 * 16 + s2 / 4) :: (s2 % 4 * 64 + s3) :: tl
      | none, none =>
        if y = '=' ∧ z = '=' ∧ rest = [] then some [s0 * 4 + s1 / 16] else none
      | some s2, none =>
        if z = '=' ∧ rest = [] then some [s0 * 4 + s1 / 16, s1 % 16 * 16 + s2 / 4] else none
      | none, some _ => none
    | _, _ => none
  | _ => none

/-- `Beacon::beacon_id`: the base64 encoding of `Beacon.data`. -/
def Beacon.beacon_id (b : Beacon) : String := String.mk (b64Encode b.data)

/-! ### The wire report (`TryFrom<Beacon> for IotBeaconReportReqV1`) -/

/-- The fields of `poc_iot::IotBeaconReportReqV1` the conversion fills. -/
structure IotBeaconReportReqV1 where
  pub_key : List Nat
  local_entropy : List Nat
  remote_entropy : List Nat
  data : List Nat
  frequency : Nat
  channel : Int
  datarate : Int
  tmst : Nat
  tx_power : Int
  timestamp : Nat
  signature : List Nat
deriving DecidableEq, Repr

/-- `TryFrom<Beacon>::try_from`.  The system-clock read
(`SystemTime::now().duration_since(UNIX_EPOCH)`) is the one ambient input;
it is passed explicitly as `now`, nanoseconds on success (`as u64` wraps
modulo `2^64`), and its failure propagates as an error. -/
def Beacon.try_from (v : Beacon) (now : Except Error Nat) : Except Error IotBeaconReportReqV1 :=
  match now with
  | Except.error e => Except.error e
  | Except.ok nanos =>
    Except.ok
      ⟨[], v.local_entropy.data, v.remote_entropy.data, v.data, v.frequency, 0,
        v.datarate.tag, 0, 27, nanos % 2 ^ 64, []⟩

/-! ### Spec-side restatement of the derivation -/

/-- Modelled from the spec: §4.1's derivation contract, written as the
spec enumerates it —

1. compute the 256-bit digest over serialized remote entropy then
   serialized local entropy;
2. use all 32 digest bytes as the seed of the deterministic stream;
3. draw in order: a uniform index into `region_params` (failing on an
   empty list with no randomness consumed), a uniform integer in
   `[5, 10]`, and a uniform index into the fixed datarate list;
4. truncate the digest to the drawn payload size;
5. return the beacon with the two entropies attached unchanged.

Versions other than 0 and 1 are a hard rejection before any digest use. -/
def derive_spec (fuel : Nat) (remote_entropy local_entropy : Entropy)
    (region_params : List BlockchainRegionParamV1) : Option (Except Error Beacon) :=
  if remote_entropy.version = 0 ∨ remote_entropy.version = 1 then
    let d := sha256 (remote_entropy.digestBytes ++ local_entropy.digestBytes)
    let key := leWords d
    if region_params.isEmpty then some (Except.error Error.noRegionParams)
    else
      match sample_single_inclusive key fuel 0 0 (region_params.length - 1) with
      | none => none
      | some (i, pos1) =>
        match sample_single_inclusive key fuel pos1 5 10 with
        | none => none
        | some (size, pos2) =>
          match sample_single_inclusive key fuel pos2 0 (BEACON_DATA_RATES.length - 1) with
          | none => none
          | some (j, _) =>
            some (Except.ok
              ⟨d.take size, (region_params.getD i ⟨0⟩).channel_frequency,
                BEACON_DATA_RATES.getD j DataRate.sf7bw125, remote_entropy, local_entropy⟩)
  else some (Except.error Error.invalidVersion)

/-! ### Decidability of derivation results, and concrete test inputs -/

instance instDecEqExcept {ε α : Type} [DecidableEq ε] [DecidableEq α] :
    DecidableEq (Except ε α) := fun a b =>
  match a, b with
  | Except.error x, Except.error y =>
    if h : x = y then Decidable.isTrue (congrArg Except.error h)
    else Decidable.isFalse fun hc => h (by injection hc)
  | Except.ok x, Except.ok y =>
    if h : x = y then Decidable.isTrue (congrArg Except.ok h)
    else Decidable.isFalse fun hc => h (by injection hc)
  | Except.error _, Except.ok _ => Decidable.isFalse fun hc => Except.noConfusion hc
  | Except.ok _, Except.error _ => Decidable.isFalse fun hc => Except.noConfusion hc

/-- A concrete remote entropy: version 0, no data, timestamp 0. -/
def re0 : Entropy := ⟨0, [], 0⟩

/-- A concrete local entropy: version 0, no data, timestamp 1. -/
def le0 : Entropy := ⟨0, [], 1⟩

/-- A concrete three-channel region plan. -/
def rp0 : List BlockchainRegionParamV1 := [⟨904300000⟩, ⟨904500000⟩, ⟨904700000⟩]

/-- The beacon `Beacon::new` derives from `re0`, `le0`, `rp0`. -/
def b0 : Beacon :=
  ⟨[157, 52, 20, 159, 189, 31, 231], 904300000, DataRate.sf10bw125, re0, le0⟩

/-- The wire report built from `b0` at clock reading 1700000000. -/
def r0 : IotBeaconReportReqV1 :=
  ⟨[], [], [], [157, 52, 20, 159, 189, 31, 231], 904300000, 0, 2, 0, 27, 1700000000, []⟩

/-! ### Helper lemmas -/

set_option maxRecDepth 100000

theorem sha256_length (msg : List Nat) : (sha256 msg).length = 32 := by
  simp [sha256, shaOut, beBytes4]

theorem nextU64_lt (key : List Nat) (n : Nat) : nextU64 key n < 2 ^ 64 :=
  Nat.mod_lt _ (by norm_num)

theorem sampleLoop_lt (key : List Nat) (range zone : Nat) (hr : 0 < range) :
    ∀ fuel pos h p, sampleLoop key range zone fuel pos = some (h, p) → h < range := by
  intro fuel
  induction fuel with
  | zero => intro pos h p hc; exact absurd hc (by simp [sampleLoop])
  | succ n ih =>
    intro pos h p hc
    by_cases hz : nextU64 key pos * range % 2 ^ 64 ≤ zone
    · simp only [sampleLoop, hz, if_pos] at hc
      obtain ⟨rfl, rfl⟩ : nextU64 key pos * range / 2 ^ 64 = h ∧ pos + 1 = p := by
        constructor <;> injection hc with hc <;> injection hc
      have hv : nextU64 key pos < 2 ^ 64 := nextU64_lt key pos
      have : nextU64 key pos * range < 2 ^ 64 * range :=
        Nat.mul_lt_mul_of_lt_of_le hv (Nat.le_refl _) hr
      exact Nat.div_lt_of_lt_mul (by omega)
    · simp only [sampleLoop, hz, if_neg, if_false] at hc
      exact ih (pos + 1) h p hc

theorem sample_single_inclusive_bounds (key : List Nat) (fuel pos lo hi x p : Nat)
    (hle : lo ≤ hi) (h : sample_single_inclusive key fuel pos lo hi = some (x, p)) :
    lo ≤ x ∧ x ≤ hi := by
  simp only [sample_single_inclusive] at h
  rcases hs : sampleLoop key (hi + 1 - lo) (sampleZone (hi + 1 - lo)) fuel pos with _ | ⟨v, q⟩
  · rw [hs] at h
    simp only [Option.map_none'] at h
    exact Option.noConfusion h
  · rw [hs] at h
    simp only [Option.map_some'] at h
    obtain ⟨hx, hp⟩ : lo + v = x ∧ q = p := by
      constructor <;> injection h with h <;> injection h
    have := sampleLoop_lt key (hi + 1 - lo) (sampleZone (hi + 1 - lo)) (by omega) fuel pos v q hs
    omega

theorem rand_frequency_cons (p : BlockchainRegionParamV1) (ps : List BlockchainRegionParamV1)
    (key : List Nat) (fuel pos : Nat) :
    rand_frequency (p :: ps) key fuel pos =
      Option.map (fun ip => Except.ok (((p :: ps).getD ip.1 ⟨0⟩).channel_frequency, ip.2))
        (sample_single_inclusive key fuel pos 0 ((p :: ps).length - 1)) := rfl

theorem rand_data_rate_eq (key : List Nat) (fuel pos : Nat) :
    rand_data_rate BEACON_DATA_RATES key fuel pos =
      Option.map (fun ip => Except.ok (BEACON_DATA_RATES.getD ip.1 DataRate.sf7bw125, ip.2))
        (sample_single_inclusive key fuel pos 0 (BEACON_DATA_RATES.length - 1)) := rfl

/-- Inversion of a successful run of the version-0 branch: the three draws
happened in order and the beacon is built from them. -/
theorem beacon_v0_inv (fuel : Nat) (re le : Entropy) (rp : List BlockchainRegionParamV1)
    (b : Beacon) (h : beacon_v0 fuel re le rp = some (Except.ok b)) :
    ∃ size i j p1 p2 p3,
      sample_single_inclusive (seedOf re le) fuel 0 0 (rp.length - 1) = some (i, p1) ∧
      sample_single_inclusive (seedOf re le) fuel p1 MIN_BEACON_V0_PAYLOAD_SIZE
        MAX_BEACON_V0_PAYLOAD_SIZE = some (size, p2) ∧
      sample_single_inclusive (seedOf re le) fuel p2 0 (BEACON_DATA_RATES.length - 1) =
        some (j, p3) ∧
      b = ⟨(mixDigest re le).take size, (rp.getD i ⟨0⟩).channel_frequency,
            BEACON_DATA_RATES.getD j DataRate.sf7bw125, re, le⟩ := by
  unfold beacon_v0 at h
  cases rp with
  | nil => simp [rand_frequency] at h
  | cons p ps =>
    rw [rand_frequency_cons] at h
    rcases h1 : sample_single_inclusive (seedOf re le) fuel 0 0 ((p :: ps).length - 1)
      with _ | ⟨i, p1⟩
    · rw [h1] at h; simp at h
    · rw [h1] at h
      simp only [Option.map_some'] at h
      rcases h2 : sample_single_inclusive (seedOf re le) fuel p1 MIN_BEACON_V0_PAYLOAD_SIZE
          MAX_BEACON_V0_PAYLOAD_SIZE with _ | ⟨size, p2⟩
      · rw [h2] at h; simp at h
      · rw [h2] at h
        simp only [Option.map_some'] at h
        rw [rand_data_rate_eq] at h
        rcases h3 : sample_single_inclusive (seedOf re le) fuel p2 0
            (BEACON_DATA_RATES.length - 1) with _ | ⟨j, p3⟩
        · rw [h3] at h; simp at h
        · rw [h3] at h
          simp only [Option.map_some'] at h
          refine ⟨size, i, j, p1, p2, p3, rfl, h2, h3, ?_⟩
          injection h with h
          injection h with h
          exact h.symm

/-- A successful `Beacon::new` run is a successful version-0 branch run. -/
theorem new_ok (fuel : Nat) (re le : Entropy) (rp : List BlockchainRegionParamV1) (b : Beacon)
    (h : Beacon.new fuel re le rp = some (Except.ok b)) :
    beacon_v0 fuel re le rp = some (Except.ok b) := by
  unfold Beacon.new at h
  rcases hv : re.version with _ | (_ | n) <;> rw [hv] at h
  · exact h
  · exact h
  · simp at h

/-- Evaluation of `Beacon::new` on the concrete inputs `re0`, `le0`, `rp0`. -/
theorem new_re0_eval : Beacon.new 64 re0 le0 rp0 = some (Except.ok b0) := rfl

/-! ### The claims -/

/-- C1: for every pair of Entropy values with equal version and a fixed
region-parameter list (the datarate list is the fixed constant), invoking
`Beacon::new` twice with byte-identical inputs yields byte-identical
`Beacon.data`, `frequency` and `datarate`. -/
theorem c1_determinism (fuel : Nat) (re1 le1 re2 le2 : Entropy)
    (rp1 rp2 : List BlockchainRegionParamV1) (b1 b2 : Beacon)
    (_hver : re1.version = le1.version)
    (hre : re1 = re2) (hle : le1 = le2) (hrp : rp1 = rp2)
    (h1 : Beacon.new fuel re1 le1 rp1 = some (Except.ok b1))
    (h2 : Beacon.new fuel re2 le2 rp2 = some (Except.ok b2)) :
    b1.data = b2.data ∧ b1.frequency = b2.frequency ∧ b1.datarate = b2.datarate := by
  subst hre; subst hle; subst hrp
  rw [h1] at h2
  injection h2 with h2
  injection h2 with h2
  subst h2
  exact ⟨rfl, rfl, rfl⟩

/-- Witness for C1 at the concrete inputs `re0`, `le0`, `rp0`. -/
theorem c1_determinism_check :
    b0.data = b0.data ∧ b0.frequency = b0.frequency ∧ b0.datarate = b0.datarate :=
  c1_determinism 64 re0 le0 re0 le0 rp0 rp0 b0 b0 rfl rfl rfl rfl new_re0_eval new_re0_eval

/-- C3: whenever `remote_entropy.version` is neither 0 nor 1, `Beacon::new`
fails with `InvalidVersion`; the result holds for every fuel, including
fuel 0, so no digest byte is used and no stream draw is consumed. -/
theorem c3_invalid_version (fuel : Nat) (re le : Entropy) (rp : List BlockchainRegionParamV1)
    (h0 : re.version ≠ 0) (h1 : re.version ≠ 1) :
    Beacon.new fuel re le rp = some (Except.error Error.invalidVersion) := by
  unfold Beacon.new
  rcases hv : re.version with _ | (_ | n)
  · exact absurd hv h0
  · exact absurd hv h1
  · rfl

/-- Witness for C3: version 2, fuel 0. -/
theorem c3_invalid_version_check :
    Beacon.new 0 ⟨2, [], 0⟩ le0 rp0 = some (Except.error Error.invalidVersion) :=
  c3_invalid_version 0 ⟨2, [], 0⟩ le0 rp0 (by decide) (by decide)

/-- C5, counterexample: with an unsupported remote version and an empty
region-parameter list, `Beacon::new` fails with `InvalidVersion`, not
`NoRegionParameters` — the claim's "regardless of contents or versions"
is false because the version gate runs first. -/
theorem c5_counterexample :
    ¬ Beacon.new 64 ⟨2, [], 0⟩ ⟨2, [], 1⟩ [] = some (Except.error Error.noRegionParams) := by
  intro hc
  have h : Beacon.new 64 ⟨2, [], 0⟩ ⟨2, [], 1⟩ [] = some (Except.error Error.invalidVersion) :=
    rfl
  rw [h] at hc
  injection hc with hc
  injection hc with hc
  exact Error.noConfusion hc

/-- C5, amended: for every pair of Entropy values whose remote version is
supported (0 or 1), `Beacon::new` with an empty region-parameter list
fails with `NoRegionParameters`; the result holds for every fuel,
including fuel 0, so no randomness is consumed. -/
theorem c5_no_region_params (fuel : Nat) (re le : Entropy)
    (h : re.version = 0 ∨ re.version = 1) :
    Beacon.new fuel re le [] = some (Except.error Error.noRegionParams) := by
  unfold Beacon.new
  rcases h with h | h <;> rw [h] <;> rfl

/-- Witness for C5 (amended) at `re0`, `le0` with fuel 0. -/
theorem c5_no_region_params_check :
    Beacon.new 0 re0 le0 [] = some (Except.error Error.noRegionParams) :=
  c5_no_region_params 0 re0 le0 (Or.inl rfl)

/-- C10: the report conversion, when the clock read succeeds, sets
`pub_key` and `signature` empty, `channel` and `tmst` to 0 and `tx_power`
to 27, and copies `data`, `frequency`, the datarate's numeric tag and both
entropies' data bytes from the beacon unchanged. -/
theorem c10_report_fields (b : Beacon) (t : Nat) (r : IotBeaconReportReqV1)
    (h : Beacon.try_from b (Except.ok t) = Except.ok r) :
    r.pub_key = [] ∧ r.signature = [] ∧ r.channel = 0 ∧ r.tmst = 0 ∧ r.tx_power = 27 ∧
      r.data = b.data ∧ r.frequency = b.frequency ∧ r.datarate = b.datarate.tag ∧
      r.local_entropy = b.local_entropy.data ∧ r.remote_entropy = b.remote_entropy.data := by
  injection h with h
  subst h
  exact ⟨rfl, rfl, rfl, rfl, rfl, rfl, rfl, rfl, rfl, rfl⟩

/-- Witness for C10 at the concrete beacon `b0` and clock reading
1700000000. -/
theorem c10_report_fields_check :
    r0.pub_key = [] ∧ r0.signature = [] ∧ r0.channel = 0 ∧ r0.tmst = 0 ∧ r0.tx_power = 27 ∧
      r0.data = b0.data ∧ r0.frequency = b0.frequency ∧ r0.datarate = b0.datarate.tag ∧
      r0.local_entropy = b0.local_entropy.data ∧ r0.remote_entropy = b0.remote_entropy.data :=
  c10_report_fields b0 1700000000 r0 rfl

/-- The version `0 | 1` branch can only fail with `NoRegionParameters`:
the fixed datarate list is non-empty, so `NoDataRate` is unreachable. -/
theorem beacon_v0_ne_no_data_rate (fuel : Nat) (re le : Entropy)
    (rp : List BlockchainRegionParamV1) :
    beacon_v0 fuel re le rp ≠ some (Except.error Error.noDataRate) := by
  intro h
  unfold beacon_v0 at h
  cases rp with
  | nil =>
    simp only [rand_frequency] at h
    injection h with h
    injection h with h
    exact Error.noConfusion h
  | cons p ps =>
    rw [rand_frequency_cons] at h
    rcases h1 : sample_single_inclusive (seedOf re le) fuel 0 0 ((p :: ps).length - 1)
      with _ | ⟨i, p1⟩
    · rw [h1] at h; simp at h
    · rw [h1] at h
      simp only [Option.map_some'] at h
      rcases h2 : sample_single_inclusive (seedOf re le) fuel p1 MIN_BEACON_V0_PAYLOAD_SIZE
          MAX_BEACON_V0_PAYLOAD_SIZE with _ | ⟨size, p2⟩
      · rw [h2] at h; simp at h
      · rw [h2] at h
        simp only [Option.map_some'] at h
        rw [rand_data_rate_eq] at h
        rcases h3 : sample_single_inclusive (seedOf re le) fuel p2 0
            (BEACON_DATA_RATES.length - 1) with _ | ⟨j, p3⟩
        · rw [h3] at h; simp at h
        · rw [h3] at h
          simp only [Option.map_some'] at h
          injection h with h
          exact Except.noConfusion h

/-- C6: every successful derivation has `5 ≤ len(Beacon.data) ≤ 10`, and
`Beacon.data` is the prefix of the 32-byte SHA-256 mixing digest of
(remote_entropy, local_entropy) of that length. -/
theorem c6_payload_bounds (fuel : Nat) (re le : Entropy) (rp : List BlockchainRegionParamV1)
    (b : Beacon) (h : Beacon.new fuel re le rp = some (Except.ok b)) :
    5 ≤ b.data.length ∧ b.data.length ≤ 10 ∧
      b.data = (mixDigest re le).take b.data.length := by
  obtain ⟨size, i, j, p1, p2, p3, h1, h2, h3, hb⟩ :=
    beacon_v0_inv fuel re le rp b (new_ok fuel re le rp b h)
  have hs := sample_single_inclusive_bounds (seedOf re le) fuel p1 MIN_BEACON_V0_PAYLOAD_SIZE
    MAX_BEACON_V0_PAYLOAD_SIZE size p2 (by decide) h2
  subst hb
  have hml : (mixDigest re le).length = 32 := sha256_length _
  have hlen : (List.take size (mixDigest re le)).length = size := by
    rw [List.length_take, hml]
    have h5 : MIN_BEACON_V0_PAYLOAD_SIZE = 5 := rfl
    have h10 : MAX_BEACON_V0_PAYLOAD_SIZE = 10 := rfl
    omega
  refine ⟨?_, ?_, ?_⟩
  · rw [hlen]; exact hs.1
  · rw [hlen]; exact hs.2
  · rw [hlen]

/-- Witness for C6 at the concrete inputs `re0`, `le0`, `rp0`. -/
theorem c6_payload_bounds_check :
    5 ≤ b0.data.length ∧ b0.data.length ≤ 10 ∧
      b0.data = (mixDigest re0 le0).take b0.data.length :=
  c6_payload_bounds 64 re0 le0 rp0 b0 new_re0_eval

/-- C7: every successful derivation's datarate is one of the four fixed
supported values, and the `NoDataRate` error is unreachable. -/
theorem c7_datarate_membership (fuel : Nat) (re le : Entropy)
    (rp : List BlockchainRegionParamV1) :
    (∀ b, Beacon.new fuel re le rp = some (Except.ok b) → b.datarate ∈ BEACON_DATA_RATES) ∧
      Beacon.new fuel re le rp ≠ some (Except.error Error.noDataRate) := by
  constructor
  · intro b h
    obtain ⟨size, i, j, p1, p2, p3, h1, h2, h3, hb⟩ :=
      beacon_v0_inv fuel re le rp b (new_ok fuel re le rp b h)
    have hj := sample_single_inclusive_bounds (seedOf re le) fuel p2 0
      (BEACON_DATA_RATES.length - 1) j p3 (by decide) h3
    subst hb
    have h3' : BEACON_DATA_RATES.length - 1 = 3 := rfl
    rcases j with _ | (_ | (_ | (_ | n)))
    · simp [BEACON_DATA_RATES]
    · simp [BEACON_DATA_RATES]
    · simp [BEACON_DATA_RATES]
    · simp [BEACON_DATA_RATES]
    · omega
  · intro hc
    unfold Beacon.new at hc
    rcases hv : re.version with _ | (_ | n) <;> rw [hv] at hc
    · exact beacon_v0_ne_no_data_rate fuel re le rp hc
    · exact beacon_v0_ne_no_data_rate fuel re le rp hc
    · injection hc with hc
      injection hc with hc
      exact Error.noConfusion hc

/-- Witness for C7 at the concrete inputs `re0`, `le0`, `rp0`. -/
theorem c7_datarate_membership_check :
    b0.datarate ∈ BEACON_DATA_RATES ∧
      Beacon.new 64 re0 le0 rp0 ≠ some (Except.error Error.noDataRate) :=
  ⟨(c7_datarate_membership 64 re0 le0 rp0).1 b0 new_re0_eval,
    (c7_datarate_membership 64 re0 le0 rp0).2⟩

/-- C2: `Beacon::new` computes exactly the spec's algorithm — SHA-256 over
remote then local serialized entropy, the full 32-byte digest as ChaCha12
seed, then in this order a uniform region-parameter index, a uniform
integer in `[5, 10]` and a uniform datarate index. -/
theorem c2_algorithm (fuel : Nat) (re le : Entropy) (rp : List BlockchainRegionParamV1) :
    Beacon.new fuel re le rp = derive_spec fuel re le rp := by
  unfold Beacon.new derive_spec
  have step : beacon_v0 fuel re le rp =
      (let d := sha256 (re.digestBytes ++ le.digestBytes)
       let key := leWords d
       if rp.isEmpty then some (Except.error Error.noRegionParams)
       else
         match sample_single_inclusive key fuel 0 0 (rp.length - 1) with
         | none => none
         | some (i, pos1) =>
           match sample_single_inclusive key fuel pos1 5 10 with
           | none => none
           | some (size, pos2) =>
             match sample_single_inclusive key fuel pos2 0 (BEACON_DATA_RATES.length - 1) with
             | none => none
             | some (j, _) =>
               some (Except.ok
                 ⟨d.take size, (rp.getD i ⟨0⟩).channel_frequency,
                   BEACON_DATA_RATES.getD j DataRate.sf7bw125, re, le⟩)) := by
    unfold beacon_v0
    simp only [seedOf, mixDigest, MIN_BEACON_V0_PAYLOAD_SIZE, MAX_BEACON_V0_PAYLOAD_SIZE]
    cases rp with
    | nil => rfl
    | cons p ps =>
      rw [rand_frequency_cons]
      rcases h1 : sample_single_inclusive (leWords (sha256 (re.digestBytes ++ le.digestBytes)))
          fuel 0 0 ((p :: ps).length - 1) with _ | ⟨i, p1⟩
      · rfl
      · simp only [Option.map_some']
        rcases h2 : sample_single_inclusive (leWords (sha256 (re.digestBytes ++ le.digestBytes)))
            fuel p1 5 10 with _ | ⟨size, p2⟩
        · rfl
        · simp only [rand_data_rate_eq, seedOf, mixDigest]
          rcases h3 : sample_single_inclusive
              (leWords (sha256 (re.digestBytes ++ le.digestBytes))) fuel p2 0
              (BEACON_DATA_RATES.length - 1) with _ | ⟨j, p3⟩
          · rfl
          · simp only [Option.map_some']
            rfl
  rcases hv : re.version with _ | (_ | n)
  · rw [if_pos (Or.inl rfl)]
    exact step
  · rw [if_pos (Or.inr rfl)]
    exact step
  · rw [if_neg (by omega)]
    rfl

/-- C4: the code accepts mismatched entropy versions.  With
`remote_entropy.version = 0` and `local_entropy.version = 2` the
derivation succeeds, although the source's doc comment ("the remote and
local entropy are checked for version equality") and the spec require the
pair to be rejected: only the remote version is ever inspected. -/
theorem c4_version_mismatch_accepted :
    Beacon.new 64 ⟨0, [], 0⟩ ⟨2, [], 1⟩ rp0 =
      some (Except.ok ⟨[157, 52, 20, 159, 189, 31, 231], 904300000, DataRate.sf10bw125,
        ⟨0, [], 0⟩, ⟨2, [], 1⟩⟩) := rfl

/-- Projections of a `beacon_v0` result that ignore the retained remote
entropy agree whenever the two remote entropies share data and timestamp
(the version does not enter the digest). -/
theorem beacon_v0_congr (fuel : Nat) (re1 re2 le : Entropy)
    (rp : List BlockchainRegionParamV1)
    (hd : re1.data = re2.data) (ht : re1.timestamp = re2.timestamp) :
    Option.map (Except.map fun b => (b.data, b.frequency, b.datarate, b.local_entropy))
        (beacon_v0 fuel re1 le rp) =
      Option.map (Except.map fun b => (b.data, b.frequency, b.datarate, b.local_entropy))
        (beacon_v0 fuel re2 le rp) := by
  have hseed : seedOf re1 le = seedOf re2 le := by
    unfold seedOf mixDigest Entropy.digestBytes
    rw [hd, ht]
  have hmix : mixDigest re1 le = mixDigest re2 le := by
    unfold mixDigest Entropy.digestBytes
    rw [hd, ht]
  unfold beacon_v0
  rw [hseed, hmix]
  rcases h1 : rand_frequency rp (seedOf re2 le) fuel 0 with _ | e | ⟨freq, p1⟩
  · rfl
  · rfl
  · simp only []
    rcases h2 : sample_single_inclusive (seedOf re2 le) fuel p1 MIN_BEACON_V0_PAYLOAD_SIZE
        MAX_BEACON_V0_PAYLOAD_SIZE with _ | ⟨size, p2⟩
    · rfl
    · simp only []
      rcases h3 : rand_data_rate BEACON_DATA_RATES (seedOf re2 le) fuel p2
          with _ | e | ⟨dr, p3⟩
      · rfl
      · rfl
      · rfl

/-- C9, counterexample: version 0 and version 1 derivations do not produce
the same result — the returned `Beacon` retains `remote_entropy`, whose
`version` field differs. -/
theorem c9_counterexample :
    ¬ Beacon.new 64 re0 le0 rp0 = Beacon.new 64 ⟨1, [], 0⟩ le0 rp0 := by
  intro hc
  have h1 : Beacon.new 64 ⟨1, [], 0⟩ le0 rp0 =
      some (Except.ok ⟨[157, 52, 20, 159, 189, 31, 231], 904300000, DataRate.sf10bw125,
        ⟨1, [], 0⟩, le0⟩) := rfl
  rw [new_re0_eval, h1] at hc
  injection hc with hc
  injection hc with hc
  exact absurd hc (by decide)

/-- C9, amended: derivations with remote version 0 and remote version 1
(all other input bytes identical) agree on everything except the retained
`remote_entropy.version`: same data, frequency, datarate and local
entropy. -/
theorem c9_versions_equivalent (fuel : Nat) (d : List Nat) (t : Nat) (le : Entropy)
    (rp : List BlockchainRegionParamV1) :
    Option.map (Except.map fun b => (b.data, b.frequency, b.datarate, b.local_entropy))
        (Beacon.new fuel ⟨0, d, t⟩ le rp) =
      Option.map (Except.map fun b => (b.data, b.frequency, b.datarate, b.local_entropy))
        (Beacon.new fuel ⟨1, d, t⟩ le rp) :=
  beacon_v0_congr fuel ⟨0, d, t⟩ ⟨1, d, t⟩ le rp rfl rfl

/-- Each six-bit value decodes back from its alphabet character. -/
theorem b64Val_b64Char : ∀ s, s < 64 → b64Val (b64Char s) = some s := by decide

/-- The padding character is not in the alphabet. -/
theorem b64Val_pad : b64Val '=' = none := by decide

/-- Standard base64 decoding inverts standard base64 encoding on byte
lists. -/
theorem b64_roundtrip : ∀ l : List Nat, (∀ x ∈ l, x < 256) → b64Decode (b64Encode l) = some l
  | [], _ => rfl
  | [a], h => by
    have ha : a < 256 := h a (by simp)
    have h0 : b64Val (b64Char (a / 4)) = some (a / 4) := b64Val_b64Char _ (by omega)
    have h1 : b64Val (b64Char (a % 4 * 16)) = some (a % 4 * 16) := b64Val_b64Char _ (by omega)
    show b64Decode [b64Char (a / 4), b64Char (a % 4 * 16), '=', '='] = some [a]
    simp only [b64Decode, h0, h1, b64Val_pad]
    simp only [and_self, if_true, reduceIte, Option.some.injEq, List.cons.injEq, and_true]
    omega
  | [a, b], h => by
    have ha : a < 256 := h a (by simp)
    have hb : b < 256 := h b (by simp)
    have h0 : b64Val (b64Char (a / 4)) = some (a / 4) := b64Val_b64Char _ (by omega)
    have h1 : b64Val (b64Char (a % 4 * 16 + b / 16)) = some (a % 4 * 16 + b / 16) :=
      b64Val_b64Char _ (by omega)
    have h2 : b64Val (b64Char (b % 16 * 4)) = some (b % 16 * 4) := b64Val_b64Char _ (by omega)
    show b64Decode [b64Char (a / 4), b64Char (a % 4 * 16 + b / 16), b64Char (b % 16 * 4), '='] =
      some [a, b]
    simp only [b64Decode, h0, h1, h2, b64Val_pad]
    simp only [and_self, if_true, reduceIte, Option.some.injEq, List.cons.injEq, and_true]
    constructor <;> omega
  | a :: b :: c :: t, h => by
    have ha : a < 256 := h a (by simp)
    have hb : b < 256 := h b (by simp)
    have hc : c < 256 := h c (by simp)
    have ht : ∀ x ∈ t, x < 256 := fun x hx => h x (by simp [hx])
    have h0 : b64Val (b64Char (a / 4)) = some (a / 4) := b64Val_b64Char _ (by omega)
    have h1 : b64Val (b64Char (a % 4 * 16 + b / 16)) = some (a % 4 * 16 + b / 16) :=
      b64Val_b64Char _ (by omega)
    have h2 : b64Val (b64Char (b % 16 * 4 + c / 64)) = some (b % 16 * 4 + c / 64) :=
      b64Val_b64Char _ (by omega)
    have h3 : b64Val (b64Char (c % 64)) = some (c % 64) := b64Val_b64Char _ (by omega)
    show b64Decode (b64Char (a / 4) :: b64Char (a % 4 * 16 + b / 16) ::
        b64Char (b % 16 * 4 + c / 64) :: b64Char (c % 64) :: b64Encode t) = some (a :: b :: c :: t)
    simp only [b64Decode, h0, h1, h2, h3]
    rw [b64_roundtrip t ht]
    simp only [Option.map_some', Option.some.injEq, List.cons.injEq]
    refine ⟨?_, ?_, ?_, trivial⟩ <;> omega

/-- C8: `beacon_id` is the standard-alphabet base64 encoding of
`Beacon.data` (total, no failure modes), and decoding the returned string
reproduces `Beacon.data` exactly. -/
theorem c8_beacon_id_roundtrip (b : Beacon) (h : ∀ x ∈ b.data, x < 256) :
    b64Decode (Beacon.beacon_id b).data = some b.data :=
  b64_roundtrip b.data h

/-- Witness for C8 at the concrete beacon `b0`. -/
theorem c8_beacon_id_roundtrip_check :
    b64Decode (Beacon.beacon_id b0).data = some b0.data :=
  c8_beacon_id_roundtrip b0 (by decide)

end Gateway
